import Mathlib

set_option maxHeartbeats 1000000

/-! Shallow embedding of the SiYuan kernel `sql` package: storage lifecycle,
extraction pipeline (blocks, attributes, refs), mutation layer (deletes and
path renames over the base table and the two full-text mirrors), statement
execution with corruption handling, and the query templating adapter.
External collaborators (the `treenode`, `parse`, `util` packages and the
lute AST accessors) are modelled as an explicit environment of abstract
functions; everything defined in the embedded file itself is translated
directly from the source. -/

namespace SiyuanSql

/-! String helpers mirroring the Go standard library calls used by the source. -/

/-- The zero-width space rune U+200B, `editor.Zwsp` in the source. -/
def zwsp : Char := '\u200B'

/-- strings.ReplaceAll(s, editor.Zwsp, ""): replacing every occurrence of a
single-rune pattern by the empty string removes that rune everywhere. -/
def stripZwsp (s : String) : String := String.mk (s.toList.filter (fun c => c ≠ zwsp))

/-- utf8.RuneCountInString: the number of Unicode code points of the string. -/
def runeCount (s : String) : Nat := s.toList.length

/-- Whether the pattern occurs at the head of the haystack. -/
def matchesAt : List Char → List Char → Bool
  | [], _ => true
  | _ :: _, [] => false
  | p :: ps, c :: cs => p = c && matchesAt ps cs

/-- Whether the pattern occurs anywhere in the haystack. -/
def containsChars (hay pat : List Char) : Bool :=
  match hay with
  | [] => matchesAt pat []
  | _ :: rest => matchesAt pat hay || containsChars rest pat

/-- strings.Contains(s, pat). -/
def containsSub (s pat : String) : Bool := containsChars s.toList pat.toList

/-- strings.Split(s, sep) for a one-rune separator, at the rune level. -/
def splitOnCharList (sep : Char) : List Char → List (List Char)
  | [] => [[]]
  | c :: rest =>
    if c = sep then [] :: splitOnCharList sep rest
    else
      match splitOnCharList sep rest with
      | [] => [[c]]
      | p :: ps => (c :: p) :: ps

/-- strings.Split(s, sep) for a one-rune separator. -/
def splitOnChar (sep : Char) (s : String) : List String :=
  (splitOnCharList sep s.toList).map String.mk

/-- The white-space runes strings.TrimSpace strips (the ASCII ones; the
strings handled here never carry the exotic Unicode spaces). -/
def isSpaceChar (c : Char) : Bool :=
  c = ' ' || c = '\t' || c = '\n' || c = '\r' || c = '\x0b' || c = '\x0c'

/-- strings.TrimSpace. -/
def trimSpace (s : String) : String :=
  String.mk (((s.toList.dropWhile isSpaceChar).reverse.dropWhile isSpaceChar).reverse)

/-- strings.LastIndex(s, "/") on the rune level: `none` models index -1, and
`some (pre, post)` models splitting at the last slash, the slash excluded
(the source takes `pathID[:idx]` and `pathID[idx+1:]`; "/" is a single ASCII
byte, so byte indexing and rune indexing agree here). -/
def breakAtLastSlash : List Char → Option (List Char × List Char)
  | [] => none
  | c :: rest =>
    match breakAtLastSlash rest with
    | some (pre, post) => some (c :: pre, post)
    | none => if c = '/' then some ([], rest) else none

/-- Splitting a string at its last '/', as in the file-annotation-ref branch
of refsFromTree. -/
def splitAtLastSlash (s : String) : Option (String × String) :=
  match breakAtLastSlash s.toList with
  | some (pre, post) => some (String.mk pre, String.mk post)
  | none => none

/-! The document tree, as exposed by the tree-provider collaborator
(the lute AST). Only the node fields the embedded source reads are kept. -/

/-- The node types named by the embedded source (`ast.NodeDocument`,
`ast.NodeHeading`, ...); `other` stands for every further lute node type. -/
inductive NodeType where
  | document | heading | paragraph | codeBlock | mathBlock | table | htmlBlock
  | list | listItem | blockquote | superBlock | attributeView
  | text | textMark
  | kramdownSpanIAL | kramdownBlockIAL
  | other
deriving DecidableEq, Repr

/-- The scalar fields of an AST node read by the embedded source. Field
`ialVals` models `parse.IALValMap(n)` for IAL nodes, `kramdownIAL` models
`parse.IAL2Map(n.KramdownIAL)` and the `IALAttr` accessor. -/
structure NodeInfo where
  typ : NodeType := NodeType.other
  id : String := ""
  textMarkType : String := ""
  textMarkFileAnnotationRefID : String := ""
  textMarkTextContent : String := ""
  kramdownIAL : List (String × String) := []
  ialVals : List (String × String) := []
deriving DecidableEq, Repr

/-- A document tree node: scalar info plus the child list. -/
inductive Node where
  | node (info : NodeInfo) (children : List Node)

def Node.info : Node → NodeInfo
  | .node i _ => i

def Node.children : Node → List Node
  | .node _ cs => cs

def Node.typ (n : Node) : NodeType := n.info.typ

def Node.id (n : Node) : String := n.info.id

/-- n.IALAttr(name): the value of the name in the node's kramdown IAL, or ""
when absent. -/
def Node.ialAttr (n : Node) (name : String) : String :=
  match n.info.kramdownIAL.lookup name with
  | some v => v
  | none => ""

/-- Modelled from the spec: `n.IsTextMarkType(t)`, the tree provider's
accessor telling whether the node's space-separated text-mark type list
carries the given mark type (the lute `ast.Node` method is not part of the
sample). -/
def Node.isTextMarkType (n : Node) (t : String) : Bool :=
  (splitOnCharList ' ' n.info.textMarkType.toList).contains t.toList

/-- Replacing the node's text-mark type, as buildRef does temporarily before
rendering the markdown. -/
def Node.withTextMarkType (n : Node) (t : String) : Node :=
  match n with
  | .node i cs => .node { i with textMarkType := t } cs

mutual

/-- The node visit sequence of `ast.Walk` when the callback only acts on
leaving (`if entering { return WalkContinue }`): children first, the node
itself last. -/
def Node.postorder : Node → List Node
  | .node i cs => postorderList cs ++ [.node i cs]

def postorderList : List Node → List Node
  | [] => []
  | n :: ns => n.postorder ++ postorderList ns

end

mutual

/-- The node visit sequence of `ast.Walk` when the callback only acts on
entering and never skips children: the node itself first, then its children. -/
def Node.preorder : Node → List Node
  | .node i cs => .node i cs :: preorderList cs

def preorderList : List Node → List Node
  | [] => []
  | n :: ns => n.preorder ++ preorderList ns

end

/-- nSort, translated case by case from the source's switch over n.Type. -/
def nSort (n : Node) : Int :=
  match n.typ with
  | .heading => 5
  | .paragraph => 10
  | .codeBlock => 10
  | .mathBlock => 10
  | .table => 10
  | .htmlBlock => 10
  | .list => 20
  | .listItem => 20
  | .blockquote => 20
  | .superBlock => 30
  | .attributeView => 30
  | .document => 0
  | .text => if n.isTextMarkType "tag" then 205 else 200
  | .textMark => if n.isTextMarkType "tag" then 205 else 200
  | _ => 100

/-- The priority table exactly as claim C6 words it: document=0, heading=5,
paragraph/code/math/table/HTML-block=10, list/list-item/blockquote=20,
super-block/attribute-view=30, plain text=100, tag text-mark=205, other
inline text=200. This is the claim-side table, to be compared with nSort. -/
def nSortClaimTable (n : Node) : Int :=
  match n.typ with
  | .document => 0
  | .heading => 5
  | .paragraph => 10
  | .codeBlock => 10
  | .mathBlock => 10
  | .table => 10
  | .htmlBlock => 10
  | .list => 20
  | .listItem => 20
  | .blockquote => 20
  | .superBlock => 30
  | .attributeView => 30
  | .text => 100
  | .textMark => if n.isTextMarkType "tag" then 205 else 200
  | _ => 100

/-- The amended priority table: text and text-mark nodes weigh 205 when they
carry the tag mark and 200 otherwise, and every node type not listed weighs
100 (the source's default case). -/
def nSortAmendedTable (n : Node) : Int :=
  match n.typ with
  | .document => 0
  | .heading => 5
  | .paragraph => 10
  | .codeBlock => 10
  | .mathBlock => 10
  | .table => 10
  | .htmlBlock => 10
  | .list => 20
  | .listItem => 20
  | .blockquote => 20
  | .superBlock => 30
  | .attributeView => 30
  | .text => if n.isTextMarkType "tag" then 205 else 200
  | .textMark => if n.isTextMarkType "tag" then 205 else 200
  | _ => 100

/-- A plain text node: no text-mark type, no IAL. -/
def plainTextNode : Node := Node.node { typ := NodeType.text } []

/-! Entities derived by the extraction pipeline, with the fields of the Go
structs they are built into. -/

/-- A block row, as assembled by buildBlockFromNode. -/
structure Block where
  id : String
  parentID : String
  rootID : String
  hash : String
  box : String
  path : String
  hpath : String
  name : String
  aliasName : String
  memo : String
  tag : String
  content : String
  fcontent : String
  markdown : String
  length : Nat
  typ : String
  subType : String
  ial : String
  sort : Int
  created : String
  updated : String
deriving DecidableEq, Repr

/-- An attribute entity: a name/value pair attached to a block or span. -/
structure Attribute where
  id : String
  name : String
  value : String
  typ : String
  blockID : String
  rootID : String
  box : String
  path : String
deriving DecidableEq, Repr

/-- A reference edge from a using block to a defining block. -/
structure Ref where
  id : String
  defBlockID : String
  defBlockParentID : String
  defBlockRootID : String
  defBlockPath : String
  blockID : String
  rootID : String
  box : String
  path : String
  content : String
  markdown : String
  typ : String
deriving DecidableEq, Repr

/-- A reference from a block into an external file annotation. -/
structure FileAnnotationRef where
  id : String
  filePath : String
  annotationId : String
  blockID : String
  rootID : String
  box : String
  path : String
  content : String
  typ : String
deriving DecidableEq, Repr

/-- The parse.Tree fields the embedded source reads. -/
structure Tree where
  id : String
  box : String
  path : String
  hpath : String
  root : Node

/-- The definer's location row returned by treenode.GetBlockTree. -/
structure BlockTreeInfo where
  parentID : String
  rootID : String
  path : String

/-- The external collaborators used by the extraction pipeline, kept
abstract: the treenode package, the lute renderer and content accessors,
and the identifier mint. `newNodeID` is fed a running counter so that each
call to the nondeterministic ast.NewNodeID is a fresh application. -/
structure Env where
  exportNodeStdMd : Node → String
  nodeStaticContent : Node → Bool → String
  firstLeafBlock : Node → Node
  headingParent : Node → Option Node
  parentBlock : Node → Node
  parentID : Node → String
  getBlockTree : String → Option BlockTreeInfo
  getBlockRef : Node → String × String
  getEmbedBlockRef : Node → String
  typeAbbr : NodeType → String
  subTypeAbbr : Node → String
  ialStr : Node → String
  nodeHash : Node → String
  timeFromID : String → String
  unescapeString : String → String
  content : Node → String
  newNodeID : Nat → String
  isBlockRef : Node → Bool
  isFileAnnotationRef : Node → Bool
  isEmbedBlockRef : Node → Bool
  isContainerBlock : Node → Bool

/-- isAttr: the allow-list of attribute names kept by extraction. -/
def isAttr (name : String) : Bool :=
  matchesAt "custom-".toList name.toList || name = "name" || name = "alias" || name = "memo" ||
    name = "bookmark" || name = "fold" || name = "heading-fold" || name = "style"

/-- The `for name, val := range attrs` filtering loop shared by the span-IAL
case, the block-IAL case and buildBlockFromNode: keep only allow-listed
names, mint a fresh id per kept pair, and stamp the given type and location.
The counter models the successive ast.NewNodeID calls. -/
def buildAttrsLoop (env : Env) (pairs : List (String × String)) (typ blockID rootID boxID p : String)
    (k : Nat) : List Attribute × Nat :=
  match pairs with
  | [] => ([], k)
  | (name, val) :: rest =>
    if isAttr name then
      let attr : Attribute :=
        { id := env.newNodeID k, name := name, value := val, typ := typ, blockID := blockID,
          rootID := rootID, box := boxID, path := p }
      let res := buildAttrsLoop env rest typ blockID rootID boxID p (k + 1)
      (attr :: res.1, res.2)
    else
      buildAttrsLoop env rest typ blockID rootID boxID p k

/-- buildAttributeFromNode: span-level IAL nodes yield span-scoped ("s")
attributes attached to the enclosing block, block-level IAL nodes yield
block-scoped ("b") attributes attached to the node itself. -/
def buildAttributeFromNode (env : Env) (n : Node) (rootID boxID p : String) (k : Nat) :
    List Attribute × Nat :=
  match n.typ with
  | .kramdownSpanIAL =>
    let parentBlock := env.parentBlock n
    buildAttrsLoop env n.info.ialVals "s" parentBlock.id rootID boxID p k
  | .kramdownBlockIAL =>
    buildAttrsLoop env n.info.ialVals "b" n.id rootID boxID p k
  | _ => ([], k)

/-- tagFromNode: documents read the comma-separated "tags" IAL value,
other nodes walk the subtree on entering and collect tag text-marks. -/
def tagFromNode (env : Env) (node : Node) : String :=
  if node.typ = NodeType.document then
    let tagIAL := env.unescapeString (node.ialAttr "tags")
    trimSpace ((splitOnChar ',' tagIAL).foldl (fun acc t =>
        let t := trimSpace t
        if t = "" then acc else acc ++ "#" ++ t ++ "# ") "")
  else
    trimSpace ((node.preorder).foldl (fun acc n =>
        if n.isTextMarkType "tag" then acc ++ "#" ++ env.content n ++ "# " else acc) "")

/-- buildBlockFromNode. The document branch takes the title as content and
fcontent; the container branch takes the static rendering of the subtree as
content and of the first leaf block as fcontent; the leaf branch takes the
static rendering as content only. In each branch `length` is the rune count
of the branch's fcontent (document, container) or content (leaf) computed
there, and the zero-width-space stripping of fcontent/content/markdown
happens after the branch, just before the Block literal is assembled. The
OCR queue pushes of the source are process-external side effects with no
influence on the returned values and are not modelled. `indexAssetPath` is
the package-level flag, passed explicitly. -/
def buildBlockFromNode (env : Env) (indexAssetPath : Bool) (n : Node) (tree : Tree) (k : Nat) :
    Block × List Attribute × Nat :=
  let boxID := tree.box
  let p := tree.path
  let rootID := tree.root.id
  let name := env.unescapeString (n.ialAttr "name")
  let aliasName := env.unescapeString (n.ialAttr "alias")
  let memo := env.unescapeString (n.ialAttr "memo")
  let tag := tagFromNode env n
  let ialContent := env.ialStr n
  let hash := env.nodeHash n
  let cfmpl : String × String × String × String × Nat :=
    if n.typ = NodeType.document then
      let content := n.ialAttr "title"
      let fcontent := content
      (content, fcontent, "", "", runeCount fcontent)
    else if env.isContainerBlock n then
      let markdown := env.exportNodeStdMd n
      let content := env.nodeStaticContent n indexAssetPath
      let fc := env.firstLeafBlock n
      let fcontent := env.nodeStaticContent fc false
      let parentID :=
        match env.headingParent n with
        | some h => h.id
        | none => env.parentID n
      (content, fcontent, markdown, parentID, runeCount fcontent)
    else
      let markdown := env.exportNodeStdMd n
      let content := env.nodeStaticContent n indexAssetPath
      let parentID :=
        match env.headingParent n with
        | some h => h.id
        | none => env.parentID n
      (content, "", markdown, parentID, runeCount content)
  let content := stripZwsp cfmpl.1
  let fcontent := stripZwsp cfmpl.2.1
  let markdown := stripZwsp cfmpl.2.2.1
  let parentID := cfmpl.2.2.2.1
  let length := cfmpl.2.2.2.2
  let block : Block :=
    { id := n.id, parentID := parentID, rootID := rootID, hash := hash, box := boxID, path := p,
      hpath := tree.hpath, name := name, aliasName := aliasName, memo := memo, tag := tag,
      content := content, fcontent := fcontent, markdown := markdown, length := length,
      typ := env.typeAbbr n.typ, subType := env.subTypeAbbr n, ial := ialContent,
      sort := nSort n, created := env.timeFromID n.id, updated := n.ialAttr "updated" }
  let res := buildAttrsLoop env n.info.kramdownIAL "b" n.id rootID boxID p k
  (block, res.1, res.2)

/-- buildRef: renders the markdown with the mark type forced to "block-ref",
resolves the definer through the block-location index (empty location fields
when the definer is not indexed yet), and attaches the edge to the enclosing
block. -/
def buildRef (env : Env) (tree : Tree) (refNode : Node) (k : Nat) : Ref × Nat :=
  let markdown := env.exportNodeStdMd (refNode.withTextMarkType "block-ref")
  let (defBlockID, text) := env.getBlockRef refNode
  let (defBlockParentID, defBlockRootID, defBlockPath) :=
    match env.getBlockTree defBlockID with
    | some defBlock => (defBlock.parentID, defBlock.rootID, defBlock.path)
    | none => ("", "", "")
  let parentBlock := env.parentBlock refNode
  ({ id := env.newNodeID k, defBlockID := defBlockID, defBlockParentID := defBlockParentID,
     defBlockRootID := defBlockRootID, defBlockPath := defBlockPath, blockID := parentBlock.id,
     rootID := tree.id, box := tree.box, path := tree.path, content := text,
     markdown := markdown, typ := env.typeAbbr refNode.typ }, k + 1)

/-- buildEmbedRef: like buildRef but for embed blocks; content and markdown
stay empty because the definer may not be indexed yet, and the edge is
attached to the embed node itself. -/
def buildEmbedRef (env : Env) (tree : Tree) (embedNode : Node) (k : Nat) : Ref × Nat :=
  let defBlockID := env.getEmbedBlockRef embedNode
  let (defBlockParentID, defBlockRootID, defBlockPath) :=
    match env.getBlockTree defBlockID with
    | some defBlock => (defBlock.parentID, defBlock.rootID, defBlock.path)
    | none => ("", "", "")
  ({ id := env.newNodeID k, defBlockID := defBlockID, defBlockParentID := defBlockParentID,
     defBlockRootID := defBlockRootID, defBlockPath := defBlockPath, blockID := embedNode.id,
     rootID := tree.id, box := tree.box, path := tree.path, content := "",
     markdown := "", typ := env.typeAbbr embedNode.typ }, k + 1)

/-- isRepeatedRef: whether an edge with the same definer and the same using
block is already in the list. -/
def isRepeatedRef (refs : List Ref) (ref : Ref) : Bool :=
  refs.any (fun r => r.defBlockID = ref.defBlockID && r.blockID = ref.blockID)

/-- The body of refsFromTree's walk callback, acting on one visited node.
The state carries the two accumulated lists and the id-mint counter. In the
file-annotation branch a composite key without '/' makes the callback return
WalkContinue before building anything. ast.NewNodeID is called inside
buildRef and buildEmbedRef before the repetition check, so the counter
advances there even when the edge is dropped as repeated. -/
def refsStep (env : Env) (tree : Tree) (st : List Ref × List FileAnnotationRef × Nat) (n : Node) :
    List Ref × List FileAnnotationRef × Nat :=
  let refs := st.1
  let fars := st.2.1
  let k := st.2.2
  if env.isBlockRef n then
    let ref := (buildRef env tree n k).1
    let k2 := (buildRef env tree n k).2
    if isRepeatedRef refs ref then (refs, fars, k2) else (refs ++ [ref], fars, k2)
  else if env.isFileAnnotationRef n then
    match splitAtLastSlash n.info.textMarkFileAnnotationRefID with
    | none => (refs, fars, k)
    | some (filePath, annotationId) =>
      let anchor := n.info.textMarkTextContent
      let text := if anchor = "" then filePath else anchor
      let parentBlock := env.parentBlock n
      let far : FileAnnotationRef :=
        { id := env.newNodeID k, filePath := filePath, annotationId := annotationId,
          blockID := parentBlock.id, rootID := tree.id, box := tree.box, path := tree.path,
          content := text, typ := env.typeAbbr n.typ }
      (refs, fars ++ [far], k + 1)
  else if env.isEmbedBlockRef n then
    let ref := (buildEmbedRef env tree n k).1
    let k2 := (buildEmbedRef env tree n k).2
    if isRepeatedRef refs ref then (refs, fars, k2) else (refs ++ [ref], fars, k2)
  else
    (refs, fars, k)

/-- The walk of refsFromTree over a given visit sequence. -/
def refsFold (env : Env) (tree : Tree) (ns : List Node)
    (st : List Ref × List FileAnnotationRef × Nat) : List Ref × List FileAnnotationRef × Nat :=
  ns.foldl (refsStep env tree) st

/-- refsFromTree: walk the tree (acting on leaving, so in postorder) and
collect block-reference edges, embed-reference edges and file-annotation
references. -/
def refsFromTree (env : Env) (tree : Tree) : List Ref × List FileAnnotationRef :=
  let res := refsFold env tree tree.root.postorder ([], [], 0)
  (res.1, res.2.1)

/-! The relational store. Each table is a list of rows with the columns of
its CREATE TABLE statement in initDBTables; the two full-text tables mirror
the blocks columns. SQLite stores values untyped, the row types use the Go
field types of the inserted entities. -/

/-- A row of the blocks table and of the two full-text mirrors. -/
structure BlocksRow where
  id : String
  parentId : String
  rootId : String
  hash : String
  box : String
  path : String
  hpath : String
  name : String
  aliasName : String
  memo : String
  tag : String
  content : String
  fcontent : String
  markdown : String
  length : Nat
  typ : String
  subtype : String
  ial : String
  sort : Int
  created : String
  updated : String
deriving DecidableEq, Repr

/-- A row of the spans table. -/
structure SpansRow where
  id : String
  blockId : String
  rootId : String
  box : String
  path : String
  content : String
  markdown : String
  typ : String
  ial : String
deriving DecidableEq, Repr

/-- A row of the assets table. -/
structure AssetsRow where
  id : String
  blockId : String
  rootId : String
  box : String
  docpath : String
  path : String
  name : String
  title : String
  hash : String
deriving DecidableEq, Repr

/-- A row of the attributes table. -/
structure AttributesRow where
  id : String
  name : String
  value : String
  typ : String
  blockId : String
  rootId : String
  box : String
  path : String
deriving DecidableEq, Repr

/-- A row of the refs table. -/
structure RefsRow where
  id : String
  defBlockId : String
  defBlockParentId : String
  defBlockRootId : String
  defBlockPath : String
  blockId : String
  rootId : String
  box : String
  path : String
  content : String
  markdown : String
  typ : String
deriving DecidableEq, Repr

/-- A row of the file_annotation_refs table. -/
structure FARefsRow where
  id : String
  filePath : String
  annotationId : String
  blockId : String
  rootId : String
  box : String
  path : String
  content : String
  typ : String
deriving DecidableEq, Repr

/-- The primary store: the blocks table, its two full-text mirrors, and the
five dependent tables. -/
structure DB where
  blocks : List BlocksRow
  blocksFts : List BlocksRow
  blocksFtsCaseInsensitive : List BlocksRow
  spans : List SpansRow
  assets : List AssetsRow
  refs : List RefsRow
  fileAnnotationRefs : List FARefsRow
  attributes : List AttributesRow
deriving DecidableEq, Repr

/-- deleteByRootID: the sequence of DELETE ... WHERE root_id = ? statements
over blocks, blocks_fts, blocks_fts_case_insensitive (the latter only when
the case-insensitive mode is active, `if !caseSensitive` in the source),
spans, assets, refs, file_annotation_refs and attributes. Each DELETE is the
removal of the rows whose root_id equals the bound argument; the statements
touch pairwise distinct tables, so the sequential execution is this
simultaneous record update. The trailing cache clear and event publish are
process-internal side effects outside the store, not modelled, and the
corruption/error handling of each execStmtTx call is the subject of the
execStmtTx model below; this is the all-statements-succeed run. -/
def deleteByRootID (caseSensitive : Bool) (rootID : String) (d : DB) : DB :=
  { blocks := d.blocks.filter (fun r => r.rootId ≠ rootID),
    blocksFts := d.blocksFts.filter (fun r => r.rootId ≠ rootID),
    blocksFtsCaseInsensitive :=
      if caseSensitive then d.blocksFtsCaseInsensitive
      else d.blocksFtsCaseInsensitive.filter (fun r => r.rootId ≠ rootID),
    spans := d.spans.filter (fun r => r.rootId ≠ rootID),
    assets := d.assets.filter (fun r => r.rootId ≠ rootID),
    refs := d.refs.filter (fun r => r.rootId ≠ rootID),
    fileAnnotationRefs := d.fileAnnotationRefs.filter (fun r => r.rootId ≠ rootID),
    attributes := d.attributes.filter (fun r => r.rootId ≠ rootID) }

/-- UPDATE blocks SET box = ?, path = ?, hpath = ? WHERE root_id = ? applied
to one row: rows under the tree's root id get the tree's box, path and
hpath, all other rows and all other columns stay as they are. -/
def updatePathRow (tree : Tree) (r : BlocksRow) : BlocksRow :=
  if r.rootId = tree.id then { r with box := tree.box, path := tree.path, hpath := tree.hpath }
  else r

/-- batchUpdatePath: the UPDATE ... SET box, path, hpath WHERE root_id
statements over blocks, blocks_fts, and blocks_fts_case_insensitive (the
latter only when the case-insensitive mode is active). Cache clear and
event publish are outside the store. -/
def batchUpdatePath (caseSensitive : Bool) (tree : Tree) (d : DB) : DB :=
  { d with
    blocks := d.blocks.map (updatePathRow tree),
    blocksFts := d.blocksFts.map (updatePathRow tree),
    blocksFtsCaseInsensitive :=
      if caseSensitive then d.blocksFtsCaseInsensitive
      else d.blocksFtsCaseInsensitive.map (updatePathRow tree) }

/-- UPDATE blocks SET hpath = ? WHERE root_id = ? applied to one row. -/
def updateHPathRow (tree : Tree) (r : BlocksRow) : BlocksRow :=
  if r.rootId = tree.id then { r with hpath := tree.hpath } else r

/-- batchUpdateHPath: like batchUpdatePath but only the hpath column. -/
def batchUpdateHPath (caseSensitive : Bool) (tree : Tree) (d : DB) : DB :=
  { d with
    blocks := d.blocks.map (updateHPathRow tree),
    blocksFts := d.blocksFts.map (updateHPathRow tree),
    blocksFtsCaseInsensitive :=
      if caseSensitive then d.blocksFtsCaseInsensitive
      else d.blocksFtsCaseInsensitive.map (updateHPathRow tree) }

/-! The storage lifecycle and statement execution, as traces of the
effects the source performs on the process, the store connection and the
file system. -/

/-- An observable effect of the lifecycle and execution code. -/
inductive Action where
  | execStmt (stmt : String)
  | rollback
  | closeDB
  | openConn
  | removeFile (path : String)
  | logError
  | logFatal (code : Nat)
  | clearCache
  | disableCache
  | enableCache
  | clearQueue
  | initBlockTree (forceRebuild : Bool)
  | setDatabaseVer
deriving DecidableEq, Repr

/-- Modelled from the spec: logging.ExitCodeReadOnlyDatabase, the
distinguished process-exit code reserved for "store is unusable, must be
rebuilt on restart" (spec section 6); the logging package is not part of
the sample, the concrete value is immaterial, only its identity matters. -/
def exitCodeReadOnlyDatabase : Nat := 20

/-- The corruption signature execStmtTx looks for in error messages. -/
def malformedSig : String := "database disk image is malformed"

/-- How a modelled call ends: normal return, an error value returned to the
caller, or process termination through logging.LogFatalf. -/
inductive ExecOutcome where
  | ok
  | errReturned (msg : String)
  | fatal (code : Nat)
deriving DecidableEq, Repr

/-- removeDatabaseFile: os.RemoveAll on the database file, then its "-shm"
and its "-wal" side files, stopping at the first failing removal. The
`removeOk` oracle tells which removals succeed; a recorded removeFile
action is a successful removal. Returns the actions and whether all three
removals succeeded (err == nil). -/
def removeDatabaseFile (dbPath : String) (removeOk : String → Bool) : List Action × Bool :=
  if removeOk dbPath then
    if removeOk (dbPath ++ "-shm") then
      if removeOk (dbPath ++ "-wal") then
        ([Action.removeFile dbPath, Action.removeFile (dbPath ++ "-shm"),
          Action.removeFile (dbPath ++ "-wal")], true)
      else ([Action.removeFile dbPath, Action.removeFile (dbPath ++ "-shm")], false)
    else ([Action.removeFile dbPath], false)
  else ([], false)

/-- execStmtTx: execute the statement inside the transaction; `execErr` is
the error value of tx.Exec (none on success). On an error carrying the
disk-image-malformed signature: roll back, close the store, delete its
files, and terminate through LogFatalf with the reserved exit code (the
code after LogFatalf never runs). On any other error: log it and return the
error to the caller. -/
def execStmtTx (dbPath : String) (removeOk : String → Bool) (stmt : String)
    (execErr : Option String) : List Action × ExecOutcome :=
  match execErr with
  | none => ([Action.execStmt stmt], ExecOutcome.ok)
  | some msg =>
    if containsSub msg malformedSig then
      ([Action.execStmt stmt, Action.rollback, Action.closeDB] ++
         (removeDatabaseFile dbPath removeOk).1 ++
         [Action.logFatal exitCodeReadOnlyDatabase],
       ExecOutcome.fatal exitCodeReadOnlyDatabase)
    else
      ([Action.execStmt stmt, Action.logError], ExecOutcome.errReturned msg)

/-- A step of initDBTables: an Exec of a DDL statement, or the
setDatabaseVer call between the stat table creation and the blocks drop. -/
inductive InitStep where
  | exec (stmt : String)
  | setVer
deriving DecidableEq, Repr

/-- The straight-line statement sequence of initDBTables. -/
def initDBTablesSteps : List InitStep :=
  [InitStep.exec "DROP TABLE IF EXISTS stat",
   InitStep.exec "CREATE TABLE stat (key, value)",
   InitStep.setVer,
   InitStep.exec "DROP TABLE IF EXISTS blocks",
   InitStep.exec "CREATE TABLE blocks (id, parent_id, root_id, hash, box, path, hpath, name, alias, memo, tag, content, fcontent, markdown, length, type, subtype, ial, sort, created, updated)",
   InitStep.exec "CREATE INDEX idx_blocks_id ON blocks(id)",
   InitStep.exec "CREATE INDEX idx_blocks_parent_id ON blocks(parent_id)",
   InitStep.exec "CREATE INDEX idx_blocks_root_id ON blocks(root_id)",
   InitStep.exec "DROP TABLE IF EXISTS blocks_fts",
   InitStep.exec "CREATE VIRTUAL TABLE blocks_fts USING fts5(id UNINDEXED, parent_id UNINDEXED, root_id UNINDEXED, hash UNINDEXED, box UNINDEXED, path UNINDEXED, hpath, name, alias, memo, tag, content, fcontent, markdown UNINDEXED, length UNINDEXED, type UNINDEXED, subtype UNINDEXED, ial, sort UNINDEXED, created UNINDEXED, updated UNINDEXED, tokenize=\"siyuan\")",
   InitStep.exec "DROP TABLE IF EXISTS blocks_fts_case_insensitive",
   InitStep.exec "CREATE VIRTUAL TABLE blocks_fts_case_insensitive USING fts5(id UNINDEXED, parent_id UNINDEXED, root_id UNINDEXED, hash UNINDEXED, box UNINDEXED, path UNINDEXED, hpath, name, alias, memo, tag, content, fcontent, markdown UNINDEXED, length UNINDEXED, type UNINDEXED, subtype UNINDEXED, ial, sort UNINDEXED, created UNINDEXED, updated UNINDEXED, tokenize=\"siyuan case_insensitive\")",
   InitStep.exec "DROP TABLE IF EXISTS spans",
   InitStep.exec "CREATE TABLE spans (id, block_id, root_id, box, path, content, markdown, type, ial)",
   InitStep.exec "CREATE INDEX idx_spans_root_id ON spans(root_id)",
   InitStep.exec "DROP TABLE IF EXISTS assets",
   InitStep.exec "CREATE TABLE assets (id, block_id, root_id, box, docpath, path, name, title, hash)",
   InitStep.exec "CREATE INDEX idx_assets_root_id ON assets(root_id)",
   InitStep.exec "DROP TABLE IF EXISTS attributes",
   InitStep.exec "CREATE TABLE attributes (id, name, value, type, block_id, root_id, box, path)",
   InitStep.exec "CREATE INDEX idx_attributes_block_id ON attributes(block_id)",
   InitStep.exec "CREATE INDEX idx_attributes_root_id ON attributes(root_id)",
   InitStep.exec "DROP TABLE IF EXISTS refs",
   InitStep.exec "CREATE TABLE refs (id, def_block_id, def_block_parent_id, def_block_root_id, def_block_path, block_id, root_id, box, path, content, markdown, type)",
   InitStep.exec "DROP TABLE IF EXISTS file_annotation_refs",
   InitStep.exec "CREATE TABLE file_annotation_refs (id, file_path, annotation_id, block_id, root_id, box, path, content, type)"]

/-- Running initDBTables' steps with an oracle telling which Execs succeed:
each failing Exec is a LogFatalf with the reserved exit code, after which
nothing further runs. -/
def runInitSteps (execOk : String → Bool) : List InitStep → List Action
  | [] => []
  | InitStep.setVer :: rest => Action.setDatabaseVer :: runInitSteps execOk rest
  | InitStep.exec s :: rest =>
    if execOk s then Action.execStmt s :: runInitSteps execOk rest
    else [Action.execStmt s, Action.logFatal exitCodeReadOnlyDatabase]

/-- initDBConnection: close any previously open handle, then open the
connection (pure configuration, no DDL and no file deletion). -/
def initDBConnection (dbOpen : Bool) : List Action :=
  (if dbOpen then [Action.closeDB] else []) ++ [Action.openConn]

/-- InitDatabase as the trace of its effects. Inputs: the forceRebuild
argument; the persisted version read by getDatabaseVer and the expected
util.DatabaseVer; whether the database file exists; whether a connection
was already open; and the success oracles for file removals and DDL
statements. When forceRebuild is false and the versions match, the call
returns right after opening the connection and initializing the block tree
(the deferred enableCache still runs). Otherwise it closes the store,
removes the database file and its side files when the file exists (a failed
removal is logged and initialization continues), reopens, and runs
initDBTables. -/
def InitDatabase (forceRebuild : Bool) (storedVer expectedVer : String)
    (dbFileExists dbOpen : Bool) (removeOk : String → Bool) (execOk : String → Bool)
    (dbPath : String) : List Action :=
  [Action.clearCache, Action.disableCache] ++
    (if forceRebuild then [Action.clearQueue] else []) ++
    initDBConnection dbOpen ++ [Action.initBlockTree forceRebuild] ++
    (if !forceRebuild && storedVer = expectedVer then
      [Action.enableCache]
    else
      [Action.closeDB] ++
        (if dbFileExists then (removeDatabaseFile dbPath removeOk).1 else []) ++
        initDBConnection true ++ runInitSteps execOk initDBTablesSteps ++
        [Action.enableCache])

/-! The query templating adapter. -/

/-- strings.Replace(stmt, "?", arg, 1) on the rune level: splice the
argument in place of the first '?' and leave the rest untouched. -/
def replaceFirstQ : List Char → List Char → List Char
  | [], _ => []
  | c :: rest, arg => if c = '?' then arg ++ rest else c :: replaceFirstQ rest arg

/-- strings.Replace(stmt, "?", arg, 1): the pattern "?" is one rune. -/
def replaceFirstQMark (stmt arg : String) : String :=
  String.mk (replaceFirstQ stmt.toList arg.toList)

/-- The `for _, arg := range args { stmt = strings.Replace(stmt, "?", arg, 1) }`
loop shared by the queryBlocks and querySpans template functions. -/
def substPlaceholders (stmt : String) (args : List String) : String :=
  args.foldl replaceFirstQMark stmt

/-- The names registered by SQLTemplateFuncs, in assignment order. -/
def sqlTemplateFuncNames : List String := ["queryBlocks", "getBlock", "querySpans", "querySQL"]

/-- The queryBlocks template function: substitute the placeholders, then
SelectBlocksRawStmt(stmt, 1, 512). The executor is abstract. -/
def queryBlocksTemplate {α : Type} (selectBlocksRawStmt : String → Nat → Nat → α)
    (stmt : String) (args : List String) : α :=
  selectBlocksRawStmt (substPlaceholders stmt args) 1 512

/-- The querySpans template function: substitute the placeholders, then
SelectSpansRawStmt(stmt, 512). -/
def querySpansTemplate {α : Type} (selectSpansRawStmt : String → Nat → α)
    (stmt : String) (args : List String) : α :=
  selectSpansRawStmt (substPlaceholders stmt args) 512

/-- The querySQL template function: Query(stmt, 1024), the error dropped. -/
def querySQLTemplate {α : Type} (queryFn : String → Nat → α) (stmt : String) : α :=
  queryFn stmt 1024

/-- The argument of the getBlock template function: a string id or a map
carrying an "id" key. -/
inductive TemplateArg where
  | str (s : String)
  | dict (pairs : List (String × String))

/-- The getBlock template function: GetBlock on the id, taken directly or
from the map's "id" key; nil when the map has none. -/
def getBlockTemplate {α : Type} (getBlockFn : String → Option α) : TemplateArg → Option α
  | TemplateArg.str s => getBlockFn s
  | TemplateArg.dict pairs =>
    match pairs.lookup "id" with
    | some v => getBlockFn v
    | none => none

/-- The pieces of a statement between its '?' placeholders, in order: the
specification-side view of the placeholder structure. Always nonempty. -/
def splitOnQ : List Char → List (List Char)
  | [] => [[]]
  | c :: rest =>
    if c = '?' then [] :: splitOnQ rest
    else
      match splitOnQ rest with
      | [] => [[c]]
      | p :: ps => (c :: p) :: ps

/-- Filling the placeholder gaps positionally: the i-th argument lands in
the i-th gap; gaps beyond the arguments keep their '?', arguments beyond
the gaps are dropped. The specification-side meaning of positional
substitution. -/
def fillQ : List (List Char) → List (List Char) → List Char
  | [], _ => []
  | [p], _ => p
  | p :: q :: ps, [] => p ++ '?' :: fillQ (q :: ps) []
  | p :: q :: ps, a :: as => p ++ a ++ fillQ (q :: ps) as

/-! Specification-side relations and helpers used in the theorem statements. -/

/-- Two reference edges with distinct (using block, defining block) pairs:
the relation whose pairwise closure states the deduplication property. -/
def distinctPair (r1 r2 : Ref) : Prop :=
  ¬(r1.defBlockID = r2.defBlockID ∧ r1.blockID = r2.blockID)

/-- The frame relation of a path rename between an old row and its new
version: every column except box, path and hpath is unchanged; under the
renamed root the three location columns take the tree's values, elsewhere
the whole row is unchanged. -/
def renameFrame (tree : Tree) (a b : BlocksRow) : Prop :=
  b.id = a.id ∧ b.parentId = a.parentId ∧ b.rootId = a.rootId ∧ b.hash = a.hash ∧
    b.name = a.name ∧ b.aliasName = a.aliasName ∧ b.memo = a.memo ∧ b.tag = a.tag ∧
    b.content = a.content ∧ b.fcontent = a.fcontent ∧ b.markdown = a.markdown ∧
    b.length = a.length ∧ b.typ = a.typ ∧ b.subtype = a.subtype ∧ b.ial = a.ial ∧
    b.sort = a.sort ∧ b.created = a.created ∧ b.updated = a.updated ∧
    (if a.rootId = tree.id then b.box = tree.box ∧ b.path = tree.path ∧ b.hpath = tree.hpath
     else b.box = a.box ∧ b.path = a.path ∧ b.hpath = a.hpath)

/-- The substitution loop of the template functions at the rune level. -/
def substQ (l : List Char) (args : List (List Char)) : List Char :=
  args.foldl replaceFirstQ l

/-- The action an initDBTables step performs when it succeeds. -/
def stepAction : InitStep → Action
  | InitStep.exec s => Action.execStmt s
  | InitStep.setVer => Action.setDatabaseVer

/-! Concrete fixtures for counterexamples and witnesses. -/

/-- An environment with trivial collaborators: every external accessor
returns an empty or identity value, every external predicate is false. -/
def envTrivial : Env :=
  { exportNodeStdMd := fun _ => "", nodeStaticContent := fun _ _ => "",
    firstLeafBlock := fun n => n, headingParent := fun _ => none,
    parentBlock := fun n => n, parentID := fun _ => "",
    getBlockTree := fun _ => none, getBlockRef := fun _ => ("", ""),
    getEmbedBlockRef := fun _ => "", typeAbbr := fun _ => "",
    subTypeAbbr := fun _ => "", ialStr := fun _ => "", nodeHash := fun _ => "",
    timeFromID := fun _ => "", unescapeString := fun s => s,
    content := fun _ => "", newNodeID := fun _ => "",
    isBlockRef := fun _ => false, isFileAnnotationRef := fun _ => false,
    isEmbedBlockRef := fun _ => false, isContainerBlock := fun _ => false }

/-- A document node whose title carries a zero-width space. -/
def c2Node : Node :=
  Node.node { typ := NodeType.document, id := "20240101000000-aaaaaaa",
              kramdownIAL := [("title", "a\u200Bb")] } []

/-- A tree around the zero-width-space document node. -/
def c2Tree : Tree :=
  { id := "20240101000000-aaaaaaa", box := "box1", path := "/doc.sy", hpath := "/doc",
    root := c2Node }

/-- A blocks_fts_case_insensitive row under root "r1". -/
def c1Row : BlocksRow :=
  { id := "b1", parentId := "", rootId := "r1", hash := "", box := "box1", path := "/p",
    hpath := "/h", name := "", aliasName := "", memo := "", tag := "", content := "c",
    fcontent := "c", markdown := "c", length := 1, typ := "p", subtype := "", ial := "",
    sort := 10, created := "", updated := "" }

/-- A store whose case-insensitive full-text table holds a row under root
"r1" while every other table is empty. -/
def c1DB : DB :=
  { blocks := [], blocksFts := [], blocksFtsCaseInsensitive := [c1Row], spans := [],
    assets := [], refs := [], fileAnnotationRefs := [], attributes := [] }

/-- A spans row under root "r2". -/
def c1wSpan : SpansRow :=
  { id := "s1", blockId := "b1", rootId := "r2", box := "box1", path := "/p",
    content := "c", markdown := "c", typ := "textmark", ial := "" }

/-- A store with one span under root "r2" and one case-insensitive
full-text row under root "r2". -/
def c1wDB : DB :=
  { blocks := [], blocksFts := [], blocksFtsCaseInsensitive := [c1Row], spans := [c1wSpan],
    assets := [], refs := [], fileAnnotationRefs := [], attributes := [] }

/-- A blocks row under root "r1" with path "/old". -/
def c4Row : BlocksRow :=
  { id := "b1", parentId := "", rootId := "r1", hash := "", box := "box1", path := "/old",
    hpath := "/hold", name := "", aliasName := "", memo := "", tag := "", content := "c",
    fcontent := "c", markdown := "c", length := 1, typ := "p", subtype := "", ial := "",
    sort := 10, created := "", updated := "" }

/-- A rename target: root "r1" moves to path "/new". -/
def c4Tree : Tree :=
  { id := "r1", box := "box1", path := "/new", hpath := "/hnew",
    root := Node.node { typ := NodeType.document, id := "r1" } [] }

/-- A store whose case-insensitive full-text table holds the "/old" row. -/
def c4DB : DB :=
  { blocks := [], blocksFts := [], blocksFtsCaseInsensitive := [c4Row], spans := [],
    assets := [], refs := [], fileAnnotationRefs := [], attributes := [] }

/-- A span-level IAL node carrying one custom attribute pair. -/
def c8Node : Node :=
  Node.node { typ := NodeType.kramdownSpanIAL, ialVals := [("custom-a", "1")] } []

/-- The attribute row extraction derives from the fixture above under the
trivial environment. -/
def c8Attr : Attribute :=
  { id := "", name := "custom-a", value := "1", typ := "s", blockID := "",
    rootID := "r", box := "box1", path := "/p" }

/-- A text-mark node whose file-annotation composite key has no '/'. -/
def c10Bad : Node :=
  Node.node { typ := NodeType.textMark, textMarkFileAnnotationRefID := "noslash" } []

/-- A document root whose only child is the malformed file-annotation node. -/
def c10Root : Node :=
  Node.node { typ := NodeType.document, id := "r10" } [c10Bad]

/-- An environment classifying every text-mark node as a
file-annotation reference. -/
def c10Env : Env :=
  { envTrivial with isFileAnnotationRef := fun n => n.typ = NodeType.textMark }

/-- The tree around the malformed file-annotation node. -/
def c10Tree : Tree :=
  { id := "r10", box := "box1", path := "/p", hpath := "/h", root := c10Root }

/-! Theorems. Shared helper lemmas come first, then one theorem per claim
with its witness or counterexample. -/

theorem mem_filter_holds {α : Type} (p : α → Bool) (l : List α) :
    ∀ r ∈ l.filter p, p r = true := fun _ hr => (List.mem_filter.mp hr).2

/-- C6 counterexample: on a plain text node the source returns 200, while
the claim's table assigns plain text the weight 100. -/
theorem c6_nSort_counterexample :
    nSort plainTextNode = 200 ∧ nSortClaimTable plainTextNode = 100 ∧
      nSort plainTextNode ≠ nSortClaimTable plainTextNode := by
  refine ⟨rfl, rfl, ?_⟩
  decide

/-- C6 (amended): nSort is exactly the fixed priority table document=0,
heading=5, paragraph/code/math/table/HTML-block=10,
list/list-item/blockquote=20, super-block/attribute-view=30, tag-marked
text or text-mark=205, other text or text-mark=200, and every other node
type=100. -/
theorem c6_nSort_table (n : Node) : nSort n = nSortAmendedTable n := by
  rcases n with ⟨info, cs⟩
  rcases info with ⟨t, id, tmt, far, tc, ial, ialv⟩
  cases t <;> rfl

/-- C1 counterexample: with case-sensitive mode active, deleteByRootID on
root "r1" leaves the blocks_fts_case_insensitive row under "r1" in place,
so the deletion is not complete regardless of the case-sensitivity mode. -/
theorem c1_deleteByRootID_counterexample :
    c1Row.rootId = "r1" ∧
      (deleteByRootID true "r1" c1DB).blocksFtsCaseInsensitive = [c1Row] := ⟨rfl, rfl⟩

/-- C1 (amended): for every root id and store, deleteByRootID leaves zero
rows for that root in blocks, blocks_fts, spans, assets, refs,
file_annotation_refs and attributes; the blocks_fts_case_insensitive table
is cleared of that root's rows exactly when case-insensitive mode is
active, and is left untouched in case-sensitive mode. -/
theorem c1_deleteByRootID_amended (cs : Bool) (rootID : String) (d : DB) :
    (∀ r ∈ (deleteByRootID cs rootID d).blocks, r.rootId ≠ rootID) ∧
    (∀ r ∈ (deleteByRootID cs rootID d).blocksFts, r.rootId ≠ rootID) ∧
    (∀ r ∈ (deleteByRootID cs rootID d).spans, r.rootId ≠ rootID) ∧
    (∀ r ∈ (deleteByRootID cs rootID d).assets, r.rootId ≠ rootID) ∧
    (∀ r ∈ (deleteByRootID cs rootID d).refs, r.rootId ≠ rootID) ∧
    (∀ r ∈ (deleteByRootID cs rootID d).fileAnnotationRefs, r.rootId ≠ rootID) ∧
    (∀ r ∈ (deleteByRootID cs rootID d).attributes, r.rootId ≠ rootID) ∧
    ((deleteByRootID cs rootID d).blocksFtsCaseInsensitive =
      if cs then d.blocksFtsCaseInsensitive
      else d.blocksFtsCaseInsensitive.filter (fun r => r.rootId ≠ rootID)) ∧
    (cs = false →
      ∀ r ∈ (deleteByRootID cs rootID d).blocksFtsCaseInsensitive, r.rootId ≠ rootID) := by
  refine ⟨?_, ?_, ?_, ?_, ?_, ?_, ?_, rfl, ?_⟩
  · intro r hr
    simpa using mem_filter_holds _ d.blocks r hr
  · intro r hr
    simpa using mem_filter_holds _ d.blocksFts r hr
  · intro r hr
    simpa using mem_filter_holds _ d.spans r hr
  · intro r hr
    simpa using mem_filter_holds _ d.assets r hr
  · intro r hr
    simpa using mem_filter_holds _ d.refs r hr
  · intro r hr
    simpa using mem_filter_holds _ d.fileAnnotationRefs r hr
  · intro r hr
    simpa using mem_filter_holds _ d.attributes r hr
  · intro hcs r hr
    subst hcs
    simpa using mem_filter_holds _ d.blocksFtsCaseInsensitive r hr

/-- C1 witness: concrete instances of the amended theorem — the surviving
span under root "r2" indeed has a root other than "r1", and in
case-insensitive mode the surviving case-insensitive row is off-root. -/
theorem c1_deleteByRootID_witness : c1wSpan.rootId ≠ "r1" ∧ c1Row.rootId ≠ "r2" := by
  constructor
  · exact (c1_deleteByRootID_amended false "r1" c1wDB).2.2.1 c1wSpan (by decide)
  · exact (c1_deleteByRootID_amended false "r2" c1wDB).2.2.2.2.2.2.2.2 rfl c1Row (by decide)

theorem forall2_map_self {α : Type} {R : α → α → Prop} (f : α → α) (h : ∀ a, R a (f a)) :
    ∀ l : List α, List.Forall₂ R l (l.map f)
  | [] => List.Forall₂.nil
  | a :: l => List.Forall₂.cons (h a) (forall2_map_self f h l)

theorem updatePathRow_frame (tree : Tree) (a : BlocksRow) :
    renameFrame tree a (updatePathRow tree a) := by
  by_cases h : a.rootId = tree.id <;>
    simp [renameFrame, updatePathRow, h]

/-- C4 counterexample: in case-sensitive mode, batchUpdatePath on root "r1"
leaves the blocks_fts_case_insensitive row under "r1" with its old path, so
the rename does not reach both full-text tables. -/
theorem c4_batchUpdatePath_counterexample :
    c4Row.rootId = c4Tree.id ∧ c4Row.path ≠ c4Tree.path ∧
      (batchUpdatePath true c4Tree c4DB).blocksFtsCaseInsensitive = [c4Row] := by
  refine ⟨rfl, ?_, rfl⟩
  decide

/-- C4 (amended): batchUpdatePath rewrites only the box, path and hpath
columns of the rows under the renamed root, on the blocks table and on
blocks_fts always, and on blocks_fts_case_insensitive exactly when
case-insensitive mode is active (in case-sensitive mode that table is left
as it is); rows under other roots and all other columns, in particular
content and markdown, are unchanged, and no other table is touched. -/
theorem c4_batchUpdatePath_amended (cs : Bool) (tree : Tree) (d : DB) :
    List.Forall₂ (renameFrame tree) d.blocks (batchUpdatePath cs tree d).blocks ∧
    List.Forall₂ (renameFrame tree) d.blocksFts (batchUpdatePath cs tree d).blocksFts ∧
    List.Forall₂ (if cs then Eq else renameFrame tree) d.blocksFtsCaseInsensitive
      (batchUpdatePath cs tree d).blocksFtsCaseInsensitive ∧
    (batchUpdatePath cs tree d).spans = d.spans ∧
    (batchUpdatePath cs tree d).assets = d.assets ∧
    (batchUpdatePath cs tree d).refs = d.refs ∧
    (batchUpdatePath cs tree d).fileAnnotationRefs = d.fileAnnotationRefs ∧
    (batchUpdatePath cs tree d).attributes = d.attributes := by
  refine ⟨?_, ?_, ?_, rfl, rfl, rfl, rfl, rfl⟩
  · exact forall2_map_self _ (updatePathRow_frame tree) d.blocks
  · exact forall2_map_self _ (updatePathRow_frame tree) d.blocksFts
  · cases cs
    · simpa [batchUpdatePath] using
        forall2_map_self _ (updatePathRow_frame tree) d.blocksFtsCaseInsensitive
    · simp [batchUpdatePath, List.forall₂_same]

/-- C2 counterexample: on a document whose title carries a zero-width
space, the block's length (3) differs from the rune count of the stored
fcontent and content ("ab", 2) — the length is not the rune count of the
fields as stored after stripping. -/
theorem c2_length_counterexample :
    ((buildBlockFromNode envTrivial false c2Node c2Tree 0).1).length ≠
        runeCount (((buildBlockFromNode envTrivial false c2Node c2Tree 0).1).fcontent) ∧
      ((buildBlockFromNode envTrivial false c2Node c2Tree 0).1).length ≠
        runeCount (((buildBlockFromNode envTrivial false c2Node c2Tree 0).1).content) := by
  constructor <;> decide

/-- C2 (amended): the block's length is the rune count of the raw
fcontent text (the document title, or the first-leaf static content for
containers) respectively of the raw content text for leaves, both taken
before zero-width-space stripping, while the stored fcontent and content
fields are the stripped versions of those texts. -/
theorem c2_length_raw (env : Env) (iap : Bool) (n : Node) (tree : Tree) (k : Nat) :
    ((buildBlockFromNode env iap n tree k).1).length =
        runeCount (if n.typ = NodeType.document then n.ialAttr "title"
          else if env.isContainerBlock n then env.nodeStaticContent (env.firstLeafBlock n) false
          else env.nodeStaticContent n iap) ∧
      ((buildBlockFromNode env iap n tree k).1).fcontent =
        stripZwsp (if n.typ = NodeType.document then n.ialAttr "title"
          else if env.isContainerBlock n then env.nodeStaticContent (env.firstLeafBlock n) false
          else "") ∧
      ((buildBlockFromNode env iap n tree k).1).content =
        stripZwsp (if n.typ = NodeType.document then n.ialAttr "title"
          else env.nodeStaticContent n iap) := by
  by_cases h1 : n.typ = NodeType.document <;> by_cases h2 : env.isContainerBlock n <;>
    simp [buildBlockFromNode, h1, h2]

theorem isRepeatedRef_false {refs : List Ref} {ref : Ref}
    (h : isRepeatedRef refs ref = false) : ∀ r ∈ refs, distinctPair r ref := by
  intro r hr
  simp only [isRepeatedRef, List.any_eq_false, Bool.and_eq_true, decide_eq_true_eq,
    not_and] at h
  unfold distinctPair
  intro hc
  exact h r hr hc.1 hc.2

theorem pairwise_append_single {refs : List Ref} {ref : Ref}
    (h : refs.Pairwise distinctPair) (hnew : ∀ r ∈ refs, distinctPair r ref) :
    (refs ++ [ref]).Pairwise distinctPair := by
  rw [List.pairwise_append]
  exact ⟨h, List.pairwise_singleton _ _, fun a ha b hb => by
    simp only [List.mem_singleton] at hb
    subst hb
    exact hnew a ha⟩

theorem refsStep_pairwise (env : Env) (tree : Tree)
    (st : List Ref × List FileAnnotationRef × Nat) (n : Node)
    (h : st.1.Pairwise distinctPair) : ((refsStep env tree st n).1).Pairwise distinctPair := by
  unfold refsStep
  by_cases hb : env.isBlockRef n
  · simp only [hb, if_true]
    by_cases hrep : isRepeatedRef st.1 (buildRef env tree n st.2.2).1
    · simpa [hrep] using h
    · simp only [Bool.not_eq_true] at hrep
      simp only [hrep, if_false, Bool.false_eq_true]
      exact pairwise_append_single h (isRepeatedRef_false hrep)
  · simp only [hb, if_false, Bool.false_eq_true]
    by_cases hf : env.isFileAnnotationRef n
    · simp only [hf, if_true]
      cases hsplit : splitAtLastSlash n.info.textMarkFileAnnotationRefID with
      | none => simpa using h
      | some pr => cases pr with
        | mk fp aid => simpa using h
    · simp only [hf, if_false, Bool.false_eq_true]
      by_cases he : env.isEmbedBlockRef n
      · simp only [he, if_true]
        by_cases hrep : isRepeatedRef st.1 (buildEmbedRef env tree n st.2.2).1
        · simpa [hrep] using h
        · simp only [Bool.not_eq_true] at hrep
          simp only [hrep, if_false, Bool.false_eq_true]
          exact pairwise_append_single h (isRepeatedRef_false hrep)
      · simpa [he] using h

theorem refsFold_pairwise (env : Env) (tree : Tree) :
    ∀ (ns : List Node) (st : List Ref × List FileAnnotationRef × Nat),
      st.1.Pairwise distinctPair → ((refsFold env tree ns st).1).Pairwise distinctPair
  | [], _, h => h
  | n :: ns, st, h =>
    refsFold_pairwise env tree ns (refsStep env tree st n) (refsStep_pairwise env tree st n h)

/-- C3: for every environment and document tree, the ref list produced by
refsFromTree holds at most one Ref per (defining block id, using block id)
pair — a second direct or embed reference between the same pair is never
appended, by the isRepeatedRef guard. -/
theorem c3_refs_dedup (env : Env) (tree : Tree) :
    ((refsFromTree env tree).1).Pairwise distinctPair := by
  unfold refsFromTree
  exact refsFold_pairwise env tree tree.root.postorder ([], [], 0) (List.Pairwise.nil)

theorem breakAtLastSlash_of_no_slash :
    ∀ {l : List Char}, l.contains '/' = false → breakAtLastSlash l = none := by
  intro l
  induction l with
  | nil => intro _; rfl
  | cons c rest ih =>
    intro h
    simp only [List.contains_cons, Bool.or_eq_false_iff] at h
    unfold breakAtLastSlash
    rw [ih h.2]
    have : ¬(c = '/') := by
      intro hc
      subst hc
      simpa using h.1
    simp [this]

theorem refsStep_skip_malformed (env : Env) (tree : Tree)
    (st : List Ref × List FileAnnotationRef × Nat) (n : Node)
    (hb : env.isBlockRef n = false) (hf : env.isFileAnnotationRef n = true)
    (hns : (n.info.textMarkFileAnnotationRefID.toList).contains '/' = false) :
    refsStep env tree st n = st := by
  unfold refsStep
  have hsplit : splitAtLastSlash n.info.textMarkFileAnnotationRefID = none := by
    unfold splitAtLastSlash
    rw [breakAtLastSlash_of_no_slash hns]
  simp [hb, hf, hsplit]

/-- C10: a file-annotation-ref node whose composite key has no '/' produces
no FileAnnotationRef and no Ref at all, and the walk continues unchanged
over the rest of the visit sequence: the outcome is the same as if the node
were absent. -/
theorem c10_malformed_annotation_skipped (env : Env) (tree : Tree) (pre post : List Node)
    (n : Node) (hwalk : tree.root.postorder = pre ++ n :: post)
    (hb : env.isBlockRef n = false) (hf : env.isFileAnnotationRef n = true)
    (hns : (n.info.textMarkFileAnnotationRefID.toList).contains '/' = false) :
    refsFromTree env tree =
      ((refsFold env tree (pre ++ post) ([], [], 0)).1,
        (refsFold env tree (pre ++ post) ([], [], 0)).2.1) := by
  unfold refsFromTree
  rw [hwalk]
  unfold refsFold
  rw [List.foldl_append, List.foldl_append, List.foldl_cons,
    refsStep_skip_malformed env tree _ n hb hf hns]

/-- C10 witness: on the concrete tree whose only annotation node carries
the slashless key "noslash", extraction yields no refs and no
file-annotation refs, by the theorem applied to the concrete walk. -/
theorem c10_malformed_annotation_witness : refsFromTree c10Env c10Tree = ([], []) := by
  rw [c10_malformed_annotation_skipped c10Env c10Tree [] [c10Root] c10Bad rfl rfl
    (by decide) (by decide)]
  decide

theorem buildAttrsLoop_spec (env : Env) :
    ∀ (pairs : List (String × String)) (typ blockID rootID boxID p : String) (k : Nat),
      ∀ a ∈ (buildAttrsLoop env pairs typ blockID rootID boxID p k).1,
        isAttr a.name = true ∧ a.typ = typ := by
  intro pairs
  induction pairs with
  | nil => intro typ blockID rootID boxID p k a ha; simp [buildAttrsLoop] at ha
  | cons pair rest ih =>
    intro typ blockID rootID boxID p k a ha
    rcases pair with ⟨name, val⟩
    by_cases hattr : isAttr name
    · simp only [buildAttrsLoop, hattr, if_true, List.mem_cons] at ha
      rcases ha with ha | ha
      · subst ha
        exact ⟨hattr, rfl⟩
      · exact ih typ blockID rootID boxID p (k + 1) a ha
    · simp only [buildAttrsLoop, hattr, if_false, Bool.false_eq_true] at ha
      exact ih typ blockID rootID boxID p k a ha

/-- C8: every attribute produced by extraction has an allow-listed name
(custom- prefixed, or name/alias/memo/bookmark/fold/heading-fold/style);
span-level IAL nodes yield type "s" attributes, block-level IAL nodes and
buildBlockFromNode yield type "b" attributes. -/
theorem c8_attribute_allowlist (env : Env) (n : Node) (rootID boxID p : String) (k : Nat)
    (iap : Bool) (tree : Tree) :
    (∀ a ∈ (buildAttributeFromNode env n rootID boxID p k).1,
      isAttr a.name = true ∧
        (n.typ = NodeType.kramdownSpanIAL → a.typ = "s") ∧
        (n.typ = NodeType.kramdownBlockIAL → a.typ = "b")) ∧
    (∀ a ∈ (buildBlockFromNode env iap n tree k).2.1, isAttr a.name = true ∧ a.typ = "b") := by
  constructor
  · intro a ha
    unfold buildAttributeFromNode at ha
    split at ha
    · rename_i htyp
      have h := buildAttrsLoop_spec env n.info.ialVals "s" (env.parentBlock n).id
        rootID boxID p k a ha
      refine ⟨h.1, fun _ => h.2, fun hc => ?_⟩
      rw [htyp] at hc
      cases hc
    · rename_i htyp
      have h := buildAttrsLoop_spec env n.info.ialVals "b" n.id rootID boxID p k a ha
      refine ⟨h.1, fun hc => ?_, fun _ => h.2⟩
      rw [htyp] at hc
      cases hc
    · simp at ha
  · intro a ha
    exact buildAttrsLoop_spec env n.info.kramdownIAL "b" n.id tree.root.id tree.box tree.path
      k a ha

/-- C8 witness: the concrete span-IAL fixture yields the attribute
"custom-a" with span scope, and the theorem certifies its name is
allow-listed and its type is "s". -/
theorem c8_attribute_allowlist_witness : isAttr c8Attr.name = true ∧ c8Attr.typ = "s" := by
  have h := (c8_attribute_allowlist envTrivial c8Node "r" "box1" "/p" 0 false c2Tree).1
    c8Attr (by decide)
  exact ⟨h.1, h.2.1 rfl⟩

theorem removeDatabaseFile_all (dbPath : String) {removeOk : String → Bool}
    (h : ∀ q, removeOk q = true) :
    removeDatabaseFile dbPath removeOk =
      ([Action.removeFile dbPath, Action.removeFile (dbPath ++ "-shm"),
        Action.removeFile (dbPath ++ "-wal")], true) := by
  simp [removeDatabaseFile, h]

/-- C5: an execution error inside a transaction whose message carries the
disk-image-malformed signature makes execStmtTx roll the transaction back,
close the primary store, delete its file and the -shm and -wal side files
(when the removals succeed), and terminate the process with the reserved
read-only-database exit code; an execution error without the signature is
logged and returned to the caller instead. -/
theorem c5_execStmtTx_corruption (dbPath : String) (removeOk : String → Bool)
    (stmt msg : String) :
    (containsSub msg malformedSig = true →
      (execStmtTx dbPath removeOk stmt (some msg)).2 =
          ExecOutcome.fatal exitCodeReadOnlyDatabase ∧
        Action.rollback ∈ (execStmtTx dbPath removeOk stmt (some msg)).1 ∧
        Action.closeDB ∈ (execStmtTx dbPath removeOk stmt (some msg)).1 ∧
        ((∀ q, removeOk q = true) →
          Action.removeFile dbPath ∈ (execStmtTx dbPath removeOk stmt (some msg)).1 ∧
            Action.removeFile (dbPath ++ "-shm") ∈
              (execStmtTx dbPath removeOk stmt (some msg)).1 ∧
            Action.removeFile (dbPath ++ "-wal") ∈
              (execStmtTx dbPath removeOk stmt (some msg)).1)) ∧
    (containsSub msg malformedSig = false →
      execStmtTx dbPath removeOk stmt (some msg) =
        ([Action.execStmt stmt, Action.logError], ExecOutcome.errReturned msg)) := by
  constructor
  · intro h
    refine ⟨by simp [execStmtTx, h], by simp [execStmtTx, h], by simp [execStmtTx, h], ?_⟩
    intro hrm
    refine ⟨?_, ?_, ?_⟩ <;> simp [execStmtTx, h, removeDatabaseFile_all dbPath hrm]
  · intro h
    simp [execStmtTx, h]

/-- C5 witness: at the concrete corrupted message the outcome is the fatal
exit with the reserved code and all three files are removed; at a
non-matching message the error is returned. -/
theorem c5_execStmtTx_corruption_witness :
    (execStmtTx "data.db" (fun _ => true) "DELETE FROM blocks WHERE root_id = ?"
        (some "database disk image is malformed (11)")).2 =
        ExecOutcome.fatal exitCodeReadOnlyDatabase ∧
      Action.removeFile "data.db-wal" ∈
        (execStmtTx "data.db" (fun _ => true) "DELETE FROM blocks WHERE root_id = ?"
          (some "database disk image is malformed (11)")).1 ∧
      execStmtTx "data.db" (fun _ => true) "DELETE FROM blocks WHERE root_id = ?"
          (some "database is locked") =
        ([Action.execStmt "DELETE FROM blocks WHERE root_id = ?", Action.logError],
          ExecOutcome.errReturned "database is locked") := by
  have h1 := (c5_execStmtTx_corruption "data.db" (fun _ => true)
    "DELETE FROM blocks WHERE root_id = ?" "database disk image is malformed (11)").1
    (by decide)
  have h2 := (c5_execStmtTx_corruption "data.db" (fun _ => true)
    "DELETE FROM blocks WHERE root_id = ?" "database is locked").2 (by decide)
  exact ⟨h1.1, (h1.2.2.2 (fun _ => rfl)).2.2, h2⟩

theorem runInitSteps_all {execOk : String → Bool} (h : ∀ q, execOk q = true) :
    ∀ steps : List InitStep, runInitSteps execOk steps = steps.map stepAction := by
  intro steps
  induction steps with
  | nil => rfl
  | cons st rest ih =>
    cases st with
    | exec s => simp [runInitSteps, h, ih, stepAction]
    | setVer => simp [runInitSteps, ih, stepAction]

/-- C7: with forceRebuild false and matching schema versions, InitDatabase
performs no DDL statement and deletes no file; otherwise (forced rebuild or
version mismatch, with the database file present and removals and DDL
succeeding) it closes the store, deletes the database file and its -wal and
-shm side files, reopens, and replays every initDBTables statement — in
particular the CREATE VIRTUAL TABLE statements of both full-text tables. -/
theorem c7_InitDatabase (fr : Bool) (storedVer expectedVer : String)
    (dbFileExists dbOpen : Bool) (removeOk execOk : String → Bool) (dbPath : String) :
    (fr = false → storedVer = expectedVer →
      ∀ a ∈ InitDatabase fr storedVer expectedVer dbFileExists dbOpen removeOk execOk dbPath,
        (∀ s, a ≠ Action.execStmt s) ∧ (∀ q, a ≠ Action.removeFile q)) ∧
    ((fr = true ∨ storedVer ≠ expectedVer) → dbFileExists = true →
      (∀ q, removeOk q = true) → (∀ q, execOk q = true) →
      Action.closeDB ∈
          InitDatabase fr storedVer expectedVer dbFileExists dbOpen removeOk execOk dbPath ∧
        Action.removeFile dbPath ∈
          InitDatabase fr storedVer expectedVer dbFileExists dbOpen removeOk execOk dbPath ∧
        Action.removeFile (dbPath ++ "-shm") ∈
          InitDatabase fr storedVer expectedVer dbFileExists dbOpen removeOk execOk dbPath ∧
        Action.removeFile (dbPath ++ "-wal") ∈
          InitDatabase fr storedVer expectedVer dbFileExists dbOpen removeOk execOk dbPath ∧
        Action.openConn ∈
          InitDatabase fr storedVer expectedVer dbFileExists dbOpen removeOk execOk dbPath ∧
        (∀ s, InitStep.exec s ∈ initDBTablesSteps →
          Action.execStmt s ∈
            InitDatabase fr storedVer expectedVer dbFileExists dbOpen removeOk execOk dbPath)) := by
  constructor
  · intro h1 h2 a ha
    subst h1
    unfold InitDatabase at ha
    rw [if_pos (show (!false && decide (storedVer = expectedVer)) = true by simp [h2])] at ha
    have hgoal : ∀ b : Action, (b = Action.clearCache ∨ b = Action.disableCache ∨
        b = Action.closeDB ∨ b = Action.openConn ∨ b = Action.initBlockTree false ∨
        b = Action.enableCache) →
        (∀ s, b ≠ Action.execStmt s) ∧ (∀ q, b ≠ Action.removeFile q) := by
      intro b hb
      rcases hb with rfl | rfl | rfl | rfl | rfl | rfl <;>
        exact And.intro (fun s hx => Action.noConfusion hx) (fun q hx => Action.noConfusion hx)
    apply hgoal
    cases dbOpen <;> simp [initDBConnection] at ha <;> tauto
  · intro hcond hex hrm hok
    have hguard : (!fr && decide (storedVer = expectedVer)) = false := by
      rcases hcond with h | h
      · subst h; rfl
      · simp [h]
    simp only [InitDatabase, hguard, if_false, Bool.false_eq_true, hex, if_true,
      removeDatabaseFile_all dbPath hrm, runInitSteps_all hok, initDBConnection]
    refine ⟨by simp, by simp, by simp, by simp, by simp, ?_⟩
    intro s hs
    have : Action.execStmt s ∈ initDBTablesSteps.map stepAction :=
      List.mem_map.mpr ⟨InitStep.exec s, hs, rfl⟩
    simp [this]

/-- C7 witness: on a forced rebuild with the file present the trace deletes
the database file and recreates the case-insensitive full-text table; with
matching versions and no forced rebuild the trace never deletes that file. -/
theorem c7_InitDatabase_witness :
    Action.removeFile "data.db" ∈
        InitDatabase true "v1" "v1" true true (fun _ => true) (fun _ => true) "data.db" ∧
      Action.execStmt "DROP TABLE IF EXISTS blocks_fts_case_insensitive" ∈
        InitDatabase true "v1" "v1" true true (fun _ => true) (fun _ => true) "data.db" ∧
      Action.removeFile "data.db" ∉
        InitDatabase false "v1" "v1" true true (fun _ => true) (fun _ => true) "data.db" := by
  have h2 := (c7_InitDatabase true "v1" "v1" true true (fun _ => true) (fun _ => true)
    "data.db").2 (Or.inl rfl) rfl (fun _ => rfl) (fun _ => rfl)
  refine ⟨h2.2.1, h2.2.2.2.2.2 _ (by decide), ?_⟩
  intro hmem
  exact ((c7_InitDatabase false "v1" "v1" true true (fun _ => true) (fun _ => true)
    "data.db").1 rfl rfl _ hmem).2 "data.db" rfl

theorem splitOnQ_ne_nil : ∀ l : List Char, splitOnQ l ≠ [] := by
  intro l
  cases l with
  | nil => simp [splitOnQ]
  | cons c rest =>
    unfold splitOnQ
    by_cases hc : c = '?'
    · simp [hc]
    · cases h : splitOnQ rest <;> simp [hc, h]

theorem splitOnQ_exists (l : List Char) : ∃ p ps, splitOnQ l = p :: ps := by
  cases h : splitOnQ l with
  | nil => exact absurd h (splitOnQ_ne_nil l)
  | cons p ps => exact ⟨p, ps, rfl⟩

theorem splitOnQ_cons_ne {c : Char} (hc : ¬c = '?') {l : List Char} {p : List Char}
    {ps : List (List Char)} (h : splitOnQ l = p :: ps) :
    splitOnQ (c :: l) = (c :: p) :: ps := by
  unfold splitOnQ
  rw [if_neg hc, h]

theorem fillQ_append_head (xs q : List Char) (ps as : List (List Char)) :
    fillQ ((xs ++ q) :: ps) as = xs ++ fillQ (q :: ps) as := by
  cases ps with
  | nil => cases as <;> simp [fillQ]
  | cons r rs =>
    cases as with
    | nil => simp [fillQ, List.append_assoc]
    | cons a as2 => simp [fillQ, List.append_assoc]

theorem fillQ_splitOnQ_self : ∀ l : List Char, fillQ (splitOnQ l) [] = l := by
  intro l
  induction l with
  | nil => rfl
  | cons c rest ih =>
    obtain ⟨p, ps, hps⟩ := splitOnQ_exists rest
    by_cases hc : c = '?'
    · subst hc
      show fillQ (splitOnQ ('?' :: rest)) [] = '?' :: rest
      have hsp : splitOnQ ('?' :: rest) = [] :: p :: ps := by
        unfold splitOnQ
        rw [if_pos rfl, hps]
      rw [hsp]
      show [] ++ '?' :: fillQ (p :: ps) [] = '?' :: rest
      rw [← hps, ih]
      rfl
    · rw [splitOnQ_cons_ne hc hps]
      have : (c :: p) = [c] ++ p := rfl
      rw [this, fillQ_append_head [c] p ps [], ← hps, ih]
      rfl

theorem splitOnQ_append (xs : List Char) {ys p : List Char} {ps : List (List Char)}
    (hx : xs.contains '?' = false) (h : splitOnQ ys = p :: ps) :
    splitOnQ (xs ++ ys) = (xs ++ p) :: ps := by
  induction xs with
  | nil => simpa using h
  | cons c rest ih =>
    simp only [List.contains_cons, Bool.or_eq_false_iff] at hx
    have hc : ¬(c = '?') := by
      intro h0
      subst h0
      simpa using hx.1
    rw [List.cons_append]
    rw [splitOnQ_cons_ne hc (ih hx.2)]
    rfl

theorem fillQ_replaceFirstQ (a : List Char) (ha : a.contains '?' = false) :
    ∀ (l : List Char) (as : List (List Char)),
      fillQ (splitOnQ (replaceFirstQ l a)) as = fillQ (splitOnQ l) (a :: as) := by
  intro l
  induction l with
  | nil => intro as; rfl
  | cons c rest ih =>
    intro as
    obtain ⟨p, ps, hps⟩ := splitOnQ_exists rest
    by_cases hc : c = '?'
    · subst hc
      have hrw : replaceFirstQ ('?' :: rest) a = a ++ rest := by simp [replaceFirstQ]
      rw [hrw, splitOnQ_append a ha hps, fillQ_append_head a p ps as]
      have hsp : splitOnQ ('?' :: rest) = [] :: p :: ps := by
        unfold splitOnQ
        rw [if_pos rfl, hps]
      rw [hsp]
      rfl
    · have hrw : replaceFirstQ (c :: rest) a = c :: replaceFirstQ rest a := by
        simp [replaceFirstQ, hc]
      obtain ⟨p2, ps2, hps2⟩ := splitOnQ_exists (replaceFirstQ rest a)
      rw [hrw, splitOnQ_cons_ne hc hps2,
        show (c :: p2) = [c] ++ p2 from rfl, fillQ_append_head [c] p2 ps2 as, ← hps2, ih as,
        hps, splitOnQ_cons_ne hc hps,
        show (c :: p) = [c] ++ p from rfl, fillQ_append_head [c] p ps (a :: as)]

theorem substQ_positional :
    ∀ (as : List (List Char)) (l : List Char),
      (∀ a ∈ as, a.contains '?' = false) → substQ l as = fillQ (splitOnQ l) as := by
  intro as
  induction as with
  | nil => intro l _; exact (fillQ_splitOnQ_self l).symm
  | cons a as2 ih =>
    intro l h
    have ha := h a (List.mem_cons_self a as2)
    have h2 : ∀ b ∈ as2, b.contains '?' = false := fun b hb => h b (List.mem_cons_of_mem a hb)
    show substQ (replaceFirstQ l a) as2 = _
    rw [ih (replaceFirstQ l a) h2]
    exact fillQ_replaceFirstQ a ha l as2

theorem substPlaceholders_toList :
    ∀ (args : List String) (stmt : String),
      (substPlaceholders stmt args).toList = substQ stmt.toList (args.map String.toList) := by
  intro args
  induction args with
  | nil => intro stmt; rfl
  | cons a rest ih => intro stmt; exact ih (replaceFirstQMark stmt a)

/-- C9: SQLTemplateFuncs registers exactly queryBlocks, getBlock,
querySpans and querySQL; queryBlocks and querySpans substitute their
arguments for the '?' placeholders before execution — positionally, the
i-th argument filling the i-th remaining placeholder, so that for
placeholder-free arguments the result interleaves the statement pieces
with the arguments in order — and cap their result sets at 512 rows, while
querySQL caps its result set at 1024 rows. -/
theorem c9_template_funcs :
    sqlTemplateFuncNames = ["queryBlocks", "getBlock", "querySpans", "querySQL"] ∧
    (∀ (α : Type) (sel : String → Nat → Nat → α) (stmt : String) (args : List String),
      queryBlocksTemplate sel stmt args = sel (substPlaceholders stmt args) 1 512) ∧
    (∀ (α : Type) (sel : String → Nat → α) (stmt : String) (args : List String),
      querySpansTemplate sel stmt args = sel (substPlaceholders stmt args) 512) ∧
    (∀ (α : Type) (q : String → Nat → α) (stmt : String),
      querySQLTemplate q stmt = q stmt 1024) ∧
    (∀ (stmt : String) (args : List String),
      (∀ a ∈ args, a.toList.contains '?' = false) →
      (substPlaceholders stmt args).toList =
        fillQ (splitOnQ stmt.toList) (args.map String.toList)) := by
  refine ⟨rfl, fun _ _ _ _ => rfl, fun _ _ _ _ => rfl, fun _ _ _ => rfl, ?_⟩
  intro stmt args h
  rw [substPlaceholders_toList args stmt]
  refine substQ_positional (args.map String.toList) stmt.toList ?_
  intro b hb
  obtain ⟨a, ha, rfl⟩ := List.mem_map.mp hb
  exact h a ha

/-- C9 witness: positional substitution at a concrete two-placeholder
statement with placeholder-free arguments, through the theorem. -/
theorem c9_template_funcs_witness :
    (substPlaceholders "SELECT * FROM blocks WHERE id = ? AND box = ?" ["i1", "b1"]).toList =
      fillQ (splitOnQ ("SELECT * FROM blocks WHERE id = ? AND box = ?").toList)
        (["i1", "b1"].map String.toList) :=
  c9_template_funcs.2.2.2.2 "SELECT * FROM blocks WHERE id = ? AND box = ?" ["i1", "b1"]
    (by decide)

end SiyuanSql
